import Mathlib

/-!
Verification of the Slack team-agent bot (webhook router, mention parser,
context builder, answer generator, dedup cache) and its Composio connection
endpoints, as a shallow embedding of the TypeScript sources.

The embedding models JavaScript strings as `List Char` / `String`, JS
truthiness of `string | undefined | null` values as predicates on
`Option String`, and the specific regular expressions of the source
(`/<@(U[A-Z0-9]+)>/g`, `/<@[^>]+>/g`, `/agent/gi`, `/ask/gi`, `/what/gi`,
`/\s+/g`, `/<@|>/g`) as explicit left-to-right single-pass scanners, which is
exactly the semantics of `String.prototype.match`/`replace` with the `g` flag
for these backtrack-free patterns.
-/

namespace Doppel

/-! ## JavaScript value helpers -/

/-- Truthiness of a JS `string | undefined | null` value: `undefined`/`null`
(`none`) and the empty string are falsy. -/
def jsTruthy : Option String → Bool
  | none => false
  | some s => s ≠ ""

/-- JS `a || b` on `string | undefined` values: `a` when truthy, else `b`. -/
def jsOr (a b : Option String) : Option String :=
  if jsTruthy a then a else b

/-! ## Character classes of the source's regexes -/

/-- The class `[A-Z0-9]` of the mention regex `/<@(U[A-Z0-9]+)>/g`. -/
def isUpperAlnum (c : Char) : Bool :=
  (65 ≤ c.toNat && c.toNat ≤ 90) || (48 ≤ c.toNat && c.toNat ≤ 57)

/-- JavaScript's `\s` class (as used by `/\s+/g` and `String.prototype.trim`):
ASCII whitespace plus the Unicode space separators, line separators and BOM. -/
def isJsWs (c : Char) : Bool :=
  c.toNat = 32 || (9 ≤ c.toNat && c.toNat ≤ 13) || c.toNat = 160 ||
  c.toNat = 5760 || (8192 ≤ c.toNat && c.toNat ≤ 8202) ||
  c.toNat = 8232 || c.toNat = 8233 || c.toNat = 8239 || c.toNat = 8287 ||
  c.toNat = 12288 || c.toNat = 65279

/-! ## Global-regex scanners

`String.prototype.replace(re, rep)` and `match(re)` with a `g` flag scan the
subject left to right: at each index they try the pattern; on a match they
emit the replacement (or record the match) and resume after the consumed
text, otherwise they move one character right.  `scanRewriteF` / `scanCollectF`
implement that scan; the `Nat` argument is fuel equal to the subject length
(every recursive call consumes at least one character, so the fuel never runs
out; the `rest.length ≤ cs.length` guard makes this a total definition and is
satisfied by every step function used below). -/

def scanRewriteF (step : List Char → Option (List Char × List Char)) :
    Nat → List Char → List Char
  | _, [] => []
  | 0, l => l
  | fuel + 1, c :: cs =>
    match step (c :: cs) with
    | some (rep, rest) =>
      if rest.length ≤ cs.length then rep ++ scanRewriteF step fuel rest
      else c :: scanRewriteF step fuel cs
    | none => c :: scanRewriteF step fuel cs

def scanRewrite (step : List Char → Option (List Char × List Char))
    (l : List Char) : List Char :=
  scanRewriteF step l.length l

def scanCollectF (step : List Char → Option (List Char × List Char)) :
    Nat → List Char → List (List Char)
  | _, [] => []
  | 0, _ => []
  | fuel + 1, c :: cs =>
    match step (c :: cs) with
    | some (m, rest) =>
      if rest.length ≤ cs.length then m :: scanCollectF step fuel rest
      else scanCollectF step fuel cs
    | none => scanCollectF step fuel cs

def scanCollect (step : List Char → Option (List Char × List Char))
    (l : List Char) : List (List Char) :=
  scanCollectF step l.length l

/-! ## The individual patterns -/

/-- One attempt of `/<@(U[A-Z0-9]+)>/` at the head of the text: `<@U`, then a
non-empty run of `[A-Z0-9]`, then `>`.  Returns the full matched token and the
remaining text. -/
def mentionTokenStep : List Char → Option (List Char × List Char)
  | a :: b :: c :: rest =>
    if a = '<' ∧ b = '@' ∧ c = 'U' then
      let run := rest.takeWhile isUpperAlnum
      if run = [] then none
      else
        match rest.dropWhile isUpperAlnum with
        | d :: tail =>
          if d = '>' then some ('<' :: '@' :: 'U' :: (run ++ ['>']), tail)
          else none
        | [] => none
    else none
  | _ => none

/-- One attempt of `/<@[^>]+>/` at the head of the text (used with an empty
replacement to delete the token). -/
def mentionAnyStep : List Char → Option (List Char × List Char)
  | a :: b :: rest =>
    if a = '<' ∧ b = '@' then
      let run := rest.takeWhile (fun c => c ≠ '>')
      if run = [] then none
      else
        match rest.dropWhile (fun c => c ≠ '>') with
        | d :: tail => if d = '>' then some ([], tail) else none
        | [] => none
    else none
  | _ => none

/-- One attempt of a case-insensitive literal pattern (`/pat/gi`) at the head
of the text, replaced by `rep`.  `pat` is given in lower case. -/
def ciTokenStep (pat rep : List Char) (l : List Char) :
    Option (List Char × List Char) :=
  if pat ≠ [] ∧ (l.take pat.length).map Char.toLower = pat then
    some (rep, l.drop pat.length)
  else none

/-- One attempt of `/<@|>/` at the head of the text (deleting the match):
the alternation tries `<@` first, then `>`. -/
def stripStep : List Char → Option (List Char × List Char)
  | [] => none
  | [a] => if a = '>' then some ([], []) else none
  | a :: b :: rest =>
    if a = '<' ∧ b = '@' then some ([], rest)
    else if a = '>' then some ([], b :: rest)
    else none

/-- One attempt of `/\s+/` at the head of the text, replaced by one space. -/
def wsRunStep : List Char → Option (List Char × List Char)
  | [] => none
  | c :: cs =>
    if isJsWs c then some ([' '], (c :: cs).dropWhile isJsWs) else none

/-- `text.match(/<@(U[A-Z0-9]+)>/g)` — the list of full mention tokens
(`[]` models JavaScript's `null` result: both have length `0 ≤ 1`). -/
def findMentions (l : List Char) : List (List Char) :=
  scanCollect mentionTokenStep l

/-- `String.prototype.trim`. -/
def trimWs (l : List Char) : List Char :=
  ((l.dropWhile isJsWs).reverse.dropWhile isJsWs).reverse

/-- `mentions[1].replace(/<@|>/g, '')`. -/
def stripMentionMarks (l : List Char) : List Char :=
  scanRewrite stripStep l

/-- The question pipeline of `parseMessage` (first snapshot of
`app/api/slack/route.ts`, lines 366-372): remove `/<@[^>]+>/g`, remove
`/agent/gi`, remove `/ask/gi`, rewrite `/what/gi` to the literal `what`,
collapse `/\s+/g` to one space, trim. -/
def parseQuestion (l : List Char) : List Char :=
  trimWs (scanRewrite wsRunStep
    (scanRewrite (ciTokenStep "what".data "what".data)
      (scanRewrite (ciTokenStep "ask".data [])
        (scanRewrite (ciTokenStep "agent".data [])
          (scanRewrite mentionAnyStep l)))))

/-- `parseMessage` of `app/api/slack/route.ts` (lines 354-377): the target is
the second mention token with `<@` and `>` stripped (or `null` when fewer than
two mentions), the question is `parseQuestion`. -/
def parseMessage (text : String) : Option String × String :=
  let mentions := findMentions text.data
  let targetUserId : Option String :=
    if mentions.length > 1 then
      some (String.mk (stripMentionMarks (mentions[1]?.getD [])))
    else none
  (targetUserId, String.mk (parseQuestion text.data))

example : parseMessage "<@U1> hello" = (none, "hello") := by decide
example : (parseMessage "<@U1> <@U2ABC> ask what is he working on?").1
    = some "U2ABC" := by decide
example : (parseMessage "<@U1> <@U2ABC> ask what is he working on?").2
    = "what is he working on?" := by decide
example : (parseMessage "WHAT").2 = "what" := by decide
example : (parseMessage "about the task").2 = "about the t" := by decide
example : (parseMessage "urgent agenda").2 = "urgent agenda" := by decide

/-! ## Agent data (`lib/demo-data.ts`) and the context builder -/

/-- The shape consumed by `handleAppMention`/`buildContext` (first snapshot of
`app/api/slack/route.ts`): `displayName` and the three data sources
`calendar`, `slack`, `linear` (the issue-tracker source; the demo-data file
labels the same list `jira` in its own snapshot). -/
structure AgentData where
  name : String
  displayName : String
  calendar : List String
  slack : List String
  linear : List String
deriving DecidableEq, Repr

/-- `DEMO_AGENTS['U12345']` of `lib/demo-data.ts`. -/
def johnData : AgentData :=
  { name := "john"
    displayName := "John Smith"
    calendar :=
      [ "Mon 2pm: Sprint Planning Meeting",
        "Tue 10am: Client Demo - Acme Corp",
        "Wed 3pm: 1-on-1 with Sarah",
        "Thu 11am: Architecture Review",
        "Fri 3pm: Team Retrospective" ]
    slack :=
      [ "[#engineering] Working on the new authentication API",
        "[#project-alpha] Status update: 80% complete, shipping Friday",
        "[#general] Out of office tomorrow afternoon",
        "[#backend] Fixed the performance issue in production" ]
    linear :=
      [ "PROJ-123: Implement OAuth 2.0 authentication (In Progress)",
        "PROJ-124: Fix mobile responsiveness on login page (Done)",
        "PROJ-125: Add rate limiting to API endpoints (To Do)",
        "PROJ-126: Update user profile UI (In Review)" ] }

/-- `DEMO_AGENTS['U67890']` of `lib/demo-data.ts`. -/
def sarahData : AgentData :=
  { name := "sarah"
    displayName := "Sarah Johnson"
    calendar :=
      [ "Mon 9am: Design Review",
        "Tue 11am: Design Review with Product",
        "Wed 2pm: User Research Session",
        "Thu 3pm: 1-on-1 with CEO",
        "Fri 10am: Design System Workshop" ]
    slack :=
      [ "[#design] New mockups ready for the dashboard redesign",
        "[#product] User feedback from last week's interviews",
        "[#general] Working from home today" ]
    linear :=
      [ "PROJ-200: Homepage redesign (In Review)",
        "PROJ-201: Mobile app icon refresh (Done)",
        "PROJ-202: Design system documentation (In Progress)" ] }

/-- `getAgentData` of `lib/demo-data.ts`: keyed object lookup, `null` when the
user id is not a key of `DEMO_AGENTS`. -/
def getAgentData (userId : String) : Option AgentData :=
  if userId = "U12345" then some johnData
  else if userId = "U67890" then some sarahData
  else none

/-- The framing sentence `buildContext` starts with. -/
def framingSentence (displayName question : String) : String :=
  "Based on the following information about " ++ displayName ++
    ", answer this question: \"" ++ question ++ "\"\n\n"

/-- `list.map(x => `- ${x}`).join('\n')`. -/
def bulleted (items : List String) : String :=
  String.intercalate "\n" (items.map (fun e => "- " ++ e))

/-- `buildContext` of `app/api/slack/route.ts` (first snapshot, lines
379-395), transcribed statement by statement. -/
def buildContext (a : AgentData) (question : String) : String :=
  let context := framingSentence a.displayName question
  let context :=
    if a.calendar.length > 0 then
      context ++ "**Calendar Events:**\n" ++ bulleted a.calendar ++ "\n\n"
    else context
  let context :=
    if a.slack.length > 0 then
      context ++ "**Recent Slack Messages:**\n" ++ bulleted a.slack ++ "\n\n"
    else context
  let context :=
    if a.linear.length > 0 then
      context ++ "**Linear Tickets:**\n" ++ bulleted a.linear ++ "\n\n"
    else context
  context

/-! ## Event deduplication (`app/api/slack/route.ts`, lines 12-39)

The JS `Set` keeps insertion order and `values().next().value` is the
oldest-inserted entry, so the cache is modelled as a duplicate-free list with
new keys appended on the right and eviction dropping the head.  `setTimeout`'s
TTL removal is modelled as the separate operation `ttlExpire`; the claims
quantify over histories in which it has not fired for the key at hand. -/

def MAX_CACHE_SIZE : Nat := 1000

/-- `getEventKey`: `${channel}:${ts}:${user || 'unknown'}`. -/
def getEventKey (channel ts : String) (user : Option String) : String :=
  channel ++ ":" ++ ts ++ ":" ++ (if jsTruthy user then user.getD "" else "unknown")

def isEventProcessed (cache : List String) (eventKey : String) : Bool :=
  eventKey ∈ cache

/-- The cleanup of `markEventProcessed` lines 27-32: when the cache holds
`MAX_CACHE_SIZE` or more entries, delete the oldest entry — guarded by JS
truthiness of `firstKey`, so an empty-string head (impossible for
`getEventKey` outputs) is not deleted. -/
def evictIfFull (cache : List String) : List String :=
  if cache.length ≥ MAX_CACHE_SIZE then
    match cache with
    | [] => cache
    | firstKey :: rest => if firstKey = "" then cache else rest
  else cache

/-- `markEventProcessed`: evict if the cache is full, then add the key (a
`Set.add` no-op when the key is already present). -/
def markEventProcessed (cache : List String) (eventKey : String) : List String :=
  let cache' := evictIfFull cache
  if eventKey ∈ cache' then cache' else cache' ++ [eventKey]

/-- The TTL callback `processedEvents.delete(eventKey)`. -/
def ttlExpire (cache : List String) (eventKey : String) : List String :=
  cache.erase eventKey

/-- The mention gate of `POST` (lines 112-147): if the event key is already
processed, acknowledge without doing anything; otherwise mark it processed and
invoke the Answer Generator (`handleAppMention`) asynchronously.  The boolean
records whether the Answer Generator was invoked. -/
def routerMentionStep (cache : List String) (eventKey : String) :
    List String × Bool :=
  if isEventProcessed cache eventKey then (cache, false)
  else (markEventProcessed cache eventKey, true)

/-! ## The Answer Generator (`handleAppMention`, first snapshot, lines
216-352) as an effect-trace function

External collaborators are parameters: the Slack user lookup is a total
function `userName`, the LLM call `llm` returns `none` when `generateText`
throws, and `placeholderTs` is the timestamp Slack assigns to the posted
placeholder (used by `chat.update`).  Each Slack/LLM call appends one effect
to the returned trace, in program order. -/

inductive Effect where
  /-- `slack.chat.postMessage({channel, thread_ts, text})`. -/
  | postMessage (channel threadTs text : String)
  /-- `slack.users.info({user})`. -/
  | lookupUser (userId : String)
  /-- `generateText({system, prompt, ...})`. -/
  | llmCall (system prompt : String)
  /-- `slack.chat.update({channel, ts, text, blocks})`, with the `mrkdwn`
  texts of the blocks listed in order. -/
  | updateMessage (channel ts text : String) (blocks : List String)
deriving DecidableEq, Repr

structure Env where
  userName : String → String
  llm : String → String → Option String
  placeholderTs : String

structure SlackEvent where
  text : String
  channel : String
  ts : String
deriving DecidableEq, Repr

/-- The help message of the `Rejected` branch (line 233). -/
def helpText : String :=
  "â“ I couldn't understand that. Try:\n`@Team Agent Bot ask @john what is he working on?`"

/-- The onboarding nudge of the `UserUnknown` branch (line 255). -/
def nudgeText (userName : String) : String :=
  "@" ++ userName ++ " hasn't set up their agent yet. They can use `/setup-agent` to get started!"

/-- The placeholder text (line 273). -/
def thinkingText (displayName : String) : String :=
  "Asking " ++ displayName ++ "'s agent..."

/-- The system prompt of the LLM call (line 291). -/
def systemPrompt (displayName : String) : String :=
  "You are an AI assistant representing " ++ displayName ++
    ". Answer questions based on the provided data about their work. Be helpful and concise. If you don't have enough information, say so."

/-- The `mrkdwn` text of the answer block (line 321; the leading characters
transcribe the snapshot's bytes). -/
def agentBlockText (displayName answer : String) : String :=
  "ðŸ¤– *" ++ displayName ++ "'s Agent:*\n\n" ++ answer

/-- The sources list (lines 305-308). -/
def sourcesList (a : AgentData) : List String :=
  (if a.calendar.length > 0 then ["Calendar"] else []) ++
  (if a.slack.length > 0 then ["Slack"] else []) ++
  (if a.linear.length > 0 then ["Linear"] else [])

/-- The `mrkdwn` text of the sources footer block (line 329). -/
def sourcesFooterText (a : AgentData) : String :=
  "ðŸ“Ž Sources: " ++ String.intercalate ", " (sourcesList a)

/-- The error update of the catch branch (line 349). -/
def errorText : String := "Sorry, I encountered an error. Please try again."

def handleAppMention (env : Env) (ev : SlackEvent) : List Effect :=
  let parsed := parseMessage ev.text
  match parsed.1 with
  | none => [.postMessage ev.channel ev.ts helpText]
  | some targetUserId =>
    if targetUserId = "" ∨ parsed.2 = "" then
      [.postMessage ev.channel ev.ts helpText]
    else
      match getAgentData targetUserId with
      | none =>
        [.lookupUser targetUserId,
         .postMessage ev.channel ev.ts (nudgeText (env.userName targetUserId))]
      | some agentData =>
        let context := buildContext agentData parsed.2
        let system := systemPrompt agentData.displayName
        let thinking : Effect :=
          .postMessage ev.channel ev.ts (thinkingText agentData.displayName)
        match env.llm system context with
        | none =>
          [thinking, .llmCall system context,
           .updateMessage ev.channel env.placeholderTs errorText []]
        | some answer =>
          [thinking, .llmCall system context,
           .updateMessage ev.channel env.placeholderTs answer
             [agentBlockText agentData.displayName answer,
              sourcesFooterText agentData]]

/-! ## Connection-status query (`app/api/composio/status/route.ts` snapshots)

A broker connection record, with every field the routes read modelled as a
JS `string | undefined` value (`auth_config_obj_id` stands for
`auth_config?.id`; the source's third and fourth fallback both read it). -/

structure ConnRec where
  id : Option String
  connected_account_id : Option String
  authConfigId : Option String
  auth_config_id : Option String
  auth_config_obj_id : Option String
  status : Option String
deriving DecidableEq, Repr

/-- `conn.authConfigId || conn.auth_config_id || conn.auth_config?.id`. -/
def extractAcid (c : ConnRec) : Option String :=
  jsOr c.authConfigId (jsOr c.auth_config_id c.auth_config_obj_id)

/-- `conn.id || conn.connected_account_id`. -/
def extractConnId (c : ConnRec) : Option String :=
  jsOr c.id c.connected_account_id

/-- The reverse map `authConfigToTool` built from `TOOL_AUTH_CONFIG_IDS`
(entries with a falsy auth-config id are skipped; a later entry with the same
id overwrites an earlier one, as JS object assignment does).  `cfg` is the
static tool table, a list of `(tool name, auth config id)` pairs. -/
def authConfigToTool (cfg : List (String × String)) (acid : String) :
    Option String :=
  cfg.foldl (fun acc p => if p.2 ≠ "" ∧ p.2 = acid then some p.1 else acc) none

/-- Adding to the `connectedTools` JS `Set` (insertion-ordered, no duplicates). -/
def setAdd (acc : List String) (tool : String) : List String :=
  if tool ∈ acc then acc else acc ++ [tool]

/-- The per-record body of the `src/unnamed/part_002` status route (lines
55-93): extract the auth-config id and connection id, and add the mapped tool
when `status === 'ACTIVE' || (!status && connectionId)`. -/
def statusStepV2 (cfg : List (String × String)) (acc : List String)
    (conn : ConnRec) : List String :=
  let acid := extractAcid conn
  let connectionId := extractConnId conn
  if jsTruthy acid then
    match authConfigToTool cfg (acid.getD "") with
    | some tool =>
      if tool ≠ "" then
        if conn.status = some "ACTIVE" ∨
            (¬ jsTruthy conn.status ∧ jsTruthy connectionId) then
          setAdd acc tool
        else acc
      else acc
    | none => acc
  else acc

/-- `connectedTools` computed by the `src/unnamed/part_002` status route. -/
def statusToolsV2 (cfg : List (String × String)) (records : List ConnRec) :
    List String :=
  records.foldl (statusStepV2 cfg) []

/-- The auth-config id the `part_001` route resolves for a record (lines
74-103): from the full record fetched by `connectedAccounts.get` when that
call succeeds, from the record's own fields when it throws, and again from
the record's own fields when the resolved value is still falsy. -/
def v1ResolvedAcid (getFull : String → Option ConnRec) (conn : ConnRec) :
    Option String :=
  let acid0 :=
    match getFull ((extractConnId conn).getD "") with
    | some full => extractAcid full
    | none => extractAcid conn
  if jsTruthy acid0 then acid0 else extractAcid conn

/-- The per-record body of the `src/unnamed/part_001` status route (lines
56-110): skip records without a truthy connection id, skip any record whose
`status` is not exactly `'ACTIVE'`, then resolve the auth-config id (through
`connectedAccounts.get`, modelled by `getFull`, with fallbacks to the record's
own fields) and add the mapped tool. -/
def statusStepV1 (cfg : List (String × String))
    (getFull : String → Option ConnRec) (acc : List String)
    (conn : ConnRec) : List String :=
  let connectionId := extractConnId conn
  if ¬ jsTruthy connectionId then acc
  else if conn.status ≠ some "ACTIVE" then acc
  else
    let acid := v1ResolvedAcid getFull conn
    if jsTruthy acid then
      match authConfigToTool cfg (acid.getD "") with
      | some tool => if tool ≠ "" then setAdd acc tool else acc
      | none => acc
    else acc

/-- `connectedTools` computed by the `src/unnamed/part_001` status route. -/
def statusToolsV1 (cfg : List (String × String))
    (getFull : String → Option ConnRec) (records : List ConnRec) :
    List String :=
  records.foldl (statusStepV1 cfg getFull) []

/-! ## Connection-initiate endpoint (`app/api/composio/connect/route.ts`,
first snapshot, lines 24-123) -/

/-- `ConnectionRequestResponse`: `{id, redirectUrl?}`. -/
structure InitResult where
  id : String
  redirectUrl : Option String
deriving DecidableEq, Repr

/-- The broker collaborator: each `Option` result is `none` when the
corresponding call throws.  `connectedAccounts.delete` never influences the
response (both its success and its failure fall through to the same branch),
so it carries no result. -/
structure ConnEnv where
  listResult : Option (List ConnRec)
  getConn : String → Option InitResult
  initiate : Option InitResult

inductive ConnResponse where
  /-- `NextResponse.json({redirectUrl, connectionRequestId, resumed?})` —
  no branch of this snapshot ever sets `alreadyConnected`, recorded here so
  the field's absence is explicit. -/
  | ok (redirectUrl : Option String) (connectionRequestId : String)
      (resumed : Bool) (alreadyConnected : Bool)
  | err (msg : String) (status : Nat)
deriving DecidableEq, Repr

/-- `TOOL_AUTH_CONFIG_IDS[tool]`: JS object lookup, last duplicate key wins. -/
def recordGet (cfg : List (String × String)) (k : String) : Option String :=
  cfg.foldl (fun acc p => if p.1 = k then some p.2 else acc) none

/-- The `find` predicate of lines 53-59: the record's
`authConfigId || auth_config_id` equals the tool's auth-config id and its
status is `'INITIATED'` or `'ACTIVE'`. -/
def existingConnPred (acid : String) (c : ConnRec) : Bool :=
  jsOr c.authConfigId c.auth_config_id = some acid ∧
    (c.status = some "INITIATED" ∨ c.status = some "ACTIVE")

/-- Lines 98-115: initiate a new OAuth connection. -/
def initiateNew (env : ConnEnv) : ConnResponse :=
  match env.initiate with
  | none => .err "Failed to initiate connection" 500
  | some r =>
    if jsTruthy r.redirectUrl then .ok r.redirectUrl r.id false false
    else .err "No redirect URL received from Composio" 500

/-- `GET` of the first snapshot of `app/api/composio/connect/route.ts`:
parameter checks, tool lookup, resume of an `INITIATED` connection, the
`ACTIVE` → error branch (lines 90-96), and the new-connection flow. -/
def connectGET (cfg : List (String × String)) (tool userId : Option String)
    (env : ConnEnv) : ConnResponse :=
  if ¬ jsTruthy tool ∨ ¬ jsTruthy userId then
    .err "Missing tool or user parameter" 400
  else
    match recordGet cfg (tool.getD "") with
    | none => .err ("No auth config found for tool: " ++ tool.getD "") 400
    | some acid =>
      if acid = "" then
        .err ("No auth config found for tool: " ++ tool.getD "") 400
      else
        match env.listResult with
        | none => .err "Failed to initiate connection" 500
        | some conns =>
          match conns.find? (existingConnPred acid) with
          | some c =>
            if c.status = some "INITIATED" ∧ jsTruthy c.id then
              match env.getConn (c.id.getD "") with
              | some req =>
                if jsTruthy req.redirectUrl then
                  .ok req.redirectUrl (c.id.getD "") true false
                else initiateNew env
              | none => initiateNew env
            else if c.status = some "ACTIVE" then
              .err "Connection already exists. Please disconnect first." 400
            else initiateNew env
          | none => initiateNew env

/-! ## The question pipeline claimed by the spec (for the refinement claim on
`parseMessage`'s question) -/

/-- The question derivation exactly as the spec states it: remove all mention
tokens, case-insensitively strip the literal tokens `agent` and `ask`,
collapse whitespace runs to a single space, trim — and nothing else. -/
def specQuestionPipeline (l : List Char) : List Char :=
  trimWs (scanRewrite wsRunStep
    (scanRewrite (ciTokenStep "ask".data [])
      (scanRewrite (ciTokenStep "agent".data [])
        (scanRewrite mentionAnyStep l))))

/-- The spec's pipeline amended with the step the source actually performs
between the `ask` strip and the whitespace collapse: every case-insensitive
occurrence of `what` is rewritten to the lower-case literal `what`
(`.replace(/what/gi, 'what')`). -/
def specQuestionPipelineAmended (l : List Char) : List Char :=
  trimWs (scanRewrite wsRunStep
    (scanRewrite (ciTokenStep "what".data "what".data)
      (scanRewrite (ciTokenStep "ask".data [])
        (scanRewrite (ciTokenStep "agent".data [])
          (scanRewrite mentionAnyStep l)))))

/-! ## The labeled sections of `buildContext`, named for the structure
theorem -/

def calendarSection (a : AgentData) : String :=
  if a.calendar.length > 0 then
    "**Calendar Events:**\n" ++ bulleted a.calendar ++ "\n\n"
  else ""

def slackSection (a : AgentData) : String :=
  if a.slack.length > 0 then
    "**Recent Slack Messages:**\n" ++ bulleted a.slack ++ "\n\n"
  else ""

def linearSection (a : AgentData) : String :=
  if a.linear.length > 0 then
    "**Linear Tickets:**\n" ++ bulleted a.linear ++ "\n\n"
  else ""

lemma string_append_assoc (s t u : String) : s ++ t ++ u = s ++ (t ++ u) := by
  simp [String.ext_iff, List.append_assoc]

/-! ## Helper lemmas about the scanners -/

lemma scanRewriteF_cons (step : List Char → Option (List Char × List Char))
    (n : Nat) (c : Char) (cs : List Char) :
    scanRewriteF step (n + 1) (c :: cs) =
      match step (c :: cs) with
      | some (rep, rest) =>
        if rest.length ≤ cs.length then rep ++ scanRewriteF step n rest
        else c :: scanRewriteF step n cs
      | none => c :: scanRewriteF step n cs := rfl

lemma scanCollectF_cons (step : List Char → Option (List Char × List Char))
    (n : Nat) (c : Char) (cs : List Char) :
    scanCollectF step (n + 1) (c :: cs) =
      match step (c :: cs) with
      | some (m, rest) =>
        if rest.length ≤ cs.length then m :: scanCollectF step n rest
        else scanCollectF step n cs
      | none => scanCollectF step n cs := rfl

/-- Every match collected by the scanner satisfies any property that every
match produced by the step function satisfies. -/
lemma scanCollectF_shape {step : List Char → Option (List Char × List Char)}
    {P : List Char → Prop}
    (hstep : ∀ l m rest, step l = some (m, rest) → P m) :
    ∀ (fuel : Nat) (l : List Char), ∀ m ∈ scanCollectF step fuel l, P m := by
  intro fuel
  induction fuel with
  | zero =>
    intro l m hm
    cases l <;> simp [scanCollectF] at hm
  | succ n ih =>
    intro l m hm
    cases l with
    | nil => simp [scanCollectF] at hm
    | cons c cs =>
      rw [scanCollectF_cons] at hm
      cases hstep' : step (c :: cs) with
      | none =>
        rw [hstep'] at hm
        dsimp only at hm
        exact ih cs m hm
      | some pr =>
        obtain ⟨m', rest⟩ := pr
        rw [hstep'] at hm
        dsimp only at hm
        by_cases hlen : rest.length ≤ cs.length
        · rw [if_pos hlen] at hm
          rcases List.mem_cons.mp hm with h | h
          · exact h ▸ hstep _ _ _ hstep'
          · exact ih rest m h
        · rw [if_neg hlen] at hm
          exact ih cs m hm

/-- A character of the class `[A-Z0-9]` is none of the mention delimiters. -/
lemma upperAlnum_ne_delims {c : Char} (h : isUpperAlnum c = true) :
    c ≠ '<' ∧ c ≠ '>' ∧ c ≠ '@' := by
  refine ⟨?_, ?_, ?_⟩ <;> intro he <;> subst he <;> exact absurd h (by decide)

/-- Unfolding equation of `mentionTokenStep` on a three-or-longer list. -/
lemma mentionTokenStep_cons (a b c0 : Char) (rest' : List Char) :
    mentionTokenStep (a :: b :: c0 :: rest') =
      (if a = '<' ∧ b = '@' ∧ c0 = 'U' then
        if rest'.takeWhile isUpperAlnum = [] then none
        else
          match rest'.dropWhile isUpperAlnum with
          | d :: tail =>
            if d = '>' then
              some ('<' :: '@' :: 'U' :: (rest'.takeWhile isUpperAlnum ++ ['>']),
                tail)
            else none
          | [] => none
      else none) := rfl

/-- The shape of every token matched by `/<@(U[A-Z0-9]+)>/`. -/
lemma mentionTokenStep_shape (l m rest : List Char)
    (h : mentionTokenStep l = some (m, rest)) :
    ∃ run, run ≠ [] ∧ (∀ c ∈ run, isUpperAlnum c = true) ∧
      m = '<' :: '@' :: 'U' :: (run ++ ['>']) := by
  rcases l with _ | ⟨a, _ | ⟨b, _ | ⟨c0, rest'⟩⟩⟩
  · simp [mentionTokenStep] at h
  · simp [mentionTokenStep] at h
  · simp [mentionTokenStep] at h
  · rw [mentionTokenStep_cons] at h
    by_cases habc : a = '<' ∧ b = '@' ∧ c0 = 'U'
    · rw [if_pos habc] at h
      by_cases hrun : rest'.takeWhile isUpperAlnum = []
      · rw [if_pos hrun] at h
        simp at h
      · rw [if_neg hrun] at h
        cases hdrop : rest'.dropWhile isUpperAlnum with
        | nil => rw [hdrop] at h; simp at h
        | cons d tail =>
          rw [hdrop] at h
          dsimp only at h
          by_cases hd : d = '>'
          · rw [if_pos hd] at h
            have hpair := Option.some.inj h
            have hm : '<' :: '@' :: 'U' :: (rest'.takeWhile isUpperAlnum ++ ['>'])
                = m := congrArg Prod.fst hpair
            refine ⟨rest'.takeWhile isUpperAlnum, hrun, ?_, hm.symm⟩
            intro c hc
            exact List.mem_takeWhile_imp hc
          · rw [if_neg hd] at h
            simp at h
    · rw [if_neg habc] at h
      simp at h

/-- Stripping `/<@|>/g` from a run of `[A-Z0-9]` characters followed by `>`
removes nothing but the final `>`. -/
lemma scanRewriteF_strip_alnum :
    ∀ (fuel : Nat) (xs : List Char), xs.length < fuel →
      (∀ c ∈ xs, isUpperAlnum c = true) →
      scanRewriteF stripStep fuel (xs ++ ['>']) = xs := by
  intro fuel
  induction fuel with
  | zero => intro xs h _; omega
  | succ n ih =>
    intro xs hlen hal
    cases xs with
    | nil =>
      show scanRewriteF stripStep (n + 1) ['>'] = []
      rw [scanRewriteF_cons]
      simp [stripStep, scanRewriteF]
    | cons x xs' =>
      have hx := hal x (by simp)
      obtain ⟨hlt, hgt, hat⟩ := upperAlnum_ne_delims hx
      have hne : stripStep (x :: (xs' ++ ['>'])) = none := by
        obtain ⟨b, t, hbt⟩ : ∃ b t, xs' ++ ['>'] = b :: t := by
          cases xs' <;> exact ⟨_, _, rfl⟩
        rw [hbt]
        show (if x = '<' ∧ b = '@' then some ([], t)
          else if x = '>' then some ([], b :: t) else none) = none
        rw [if_neg (by tauto), if_neg hgt]
      show scanRewriteF stripStep (n + 1) (x :: (xs' ++ ['>'])) = x :: xs'
      rw [scanRewriteF_cons, hne]
      dsimp only
      congr 1
      exact ih xs' (by simp at hlen ⊢; omega) (fun c hc => hal c (by simp [hc]))

/-- `replace(/<@|>/g, '')` on a full mention token leaves the bare
identifier. -/
lemma stripMentionMarks_mention (run : List Char)
    (hrun : ∀ c ∈ run, isUpperAlnum c = true) :
    stripMentionMarks ('<' :: '@' :: 'U' :: (run ++ ['>'])) = 'U' :: run := by
  unfold stripMentionMarks scanRewrite
  have hlen : ('<' :: '@' :: 'U' :: (run ++ ['>'])).length = run.length + 3 + 1 := by
    simp
  rw [hlen]
  have hstep : stripStep ('<' :: '@' :: ('U' :: (run ++ ['>']))) =
      some ([], 'U' :: (run ++ ['>'])) := by
    show (if '<' = '<' ∧ '@' = '@' then some ([], 'U' :: (run ++ ['>']))
      else if '<' = '>' then some ([], '@' :: ('U' :: (run ++ ['>']))) else none)
      = some ([], 'U' :: (run ++ ['>']))
    rw [if_pos (by exact ⟨rfl, rfl⟩)]
  rw [scanRewriteF_cons, hstep]
  dsimp only
  rw [if_pos (by simp)]
  show scanRewriteF stripStep (run.length + 3) (('U' :: run) ++ ['>']) = 'U' :: run
  refine scanRewriteF_strip_alnum (run.length + 3) ('U' :: run) (by simp) ?_
  intro c hc
  rcases List.mem_cons.mp hc with h | h
  · subst h; decide
  · exact hrun c h

/-! ## Helper lemmas about the dedup cache -/

lemma mem_markEventProcessed_self (s : List String) (k : String) :
    k ∈ markEventProcessed s k := by
  unfold markEventProcessed
  by_cases h : k ∈ evictIfFull s <;> simp [h]

lemma mem_evictIfFull_of_mem (s : List String) (k : String)
    (hk : k ∈ s) (hhead : s.head? ≠ some k) : k ∈ evictIfFull s := by
  unfold evictIfFull
  split
  · cases s with
    | nil => simp at hk
    | cons f rest =>
      show k ∈ if f = "" then f :: rest else rest
      by_cases hf : f = ""
      · simpa [hf] using hk
      · rcases List.mem_cons.mp hk with h | h
        · exact absurd (by simp [h]) hhead
        · simpa [hf] using h
  · exact hk

lemma mem_markEventProcessed_of_mem (s : List String) (k k' : String)
    (hk : k ∈ s) (hhead : s.head? ≠ some k) : k ∈ markEventProcessed s k' := by
  have h := mem_evictIfFull_of_mem s k hk hhead
  unfold markEventProcessed
  by_cases h2 : k' ∈ evictIfFull s <;> simp [h2, h]

/-! ## Claim theorems -/

/-- C3: when the text holds fewer than two mention tokens the parsed target
is `none`; otherwise the target is exactly the second matched token's bare
identifier — the token is `<@` + identifier + `>` and the returned target is
that identifier with the sigil and delimiters stripped — by position,
irrespective of which mention denotes the bot. -/
theorem C3_target_is_second_mention (text : String) :
    ((findMentions text.data).length < 2 → (parseMessage text).1 = none) ∧
    (∀ m, (findMentions text.data)[1]? = some m →
      ∃ run, run ≠ [] ∧ (∀ c ∈ run, isUpperAlnum c = true) ∧
        m = '<' :: '@' :: 'U' :: (run ++ ['>']) ∧
        (parseMessage text).1 = some (String.mk ('U' :: run))) := by
  constructor
  · intro hlt
    unfold parseMessage
    dsimp only
    rw [if_neg (by omega)]
  · intro m hm
    have hmem : m ∈ findMentions text.data := List.getElem?_mem hm
    obtain ⟨run, hne, hal, hshape⟩ :=
      scanCollectF_shape mentionTokenStep_shape (text.data.length) text.data m hmem
    have hlen2 : 1 < (findMentions text.data).length :=
      (List.getElem?_eq_some.mp hm).1
    refine ⟨run, hne, hal, hshape, ?_⟩
    unfold parseMessage
    dsimp only
    rw [if_pos hlen2, hm]
    dsimp only [Option.getD]
    rw [hshape, stripMentionMarks_mention run hal]

/-- Witness for C3: one mention yields no target; with two mentions the
second one's bare identifier is returned. -/
theorem C3_target_is_second_mention_witness :
    (parseMessage "<@U1> hello").1 = none ∧
    (parseMessage "<@U1> <@U2ABC> hi").1 = some "U2ABC" := by
  constructor
  · exact (C3_target_is_second_mention "<@U1> hello").1 (by decide)
  · have h := (C3_target_is_second_mention "<@U1> <@U2ABC> hi").2
      ('<' :: '@' :: 'U' :: (['2', 'A', 'B', 'C'] ++ ['>'])) (by decide)
    obtain ⟨run, -, -, hshape, hres⟩ := h
    have hrun : ['2', 'A', 'B', 'C'] = run := by
      have h2 : ['2', 'A', 'B', 'C'] ++ ['>'] = run ++ ['>'] := by
        simpa using hshape
      exact (List.append_inj' h2 rfl).1
    rw [← hrun] at hres
    exact hres

/-- C4, counterexample: on the input `"WHAT"` the code's question pipeline
lower-cases the text to `"what"`, while the four steps listed by the claim
leave `"WHAT"` unchanged — so the claim's "no other alteration of the
remaining characters (their case included)" fails. -/
theorem C4_counterexample :
    (parseMessage "WHAT").2 = "what" ∧
    String.mk (specQuestionPipeline "WHAT".data) = "WHAT" ∧
    (parseMessage "WHAT").2 ≠ String.mk (specQuestionPipeline "WHAT".data) := by
  refine ⟨by decide, by decide, by decide⟩

/-- C4, amended: the question returned by `parseMessage` equals the claimed
pipeline with one additional step inserted between the `ask` strip and the
whitespace collapse: every case-insensitive occurrence of the literal `what`
is replaced by lower-case `what`. -/
theorem C4_amended_question_pipeline (text : String) :
    (parseMessage text).2 = String.mk (specQuestionPipelineAmended text.data) := rfl

/-- C10, counterexample: the claim's second example is wrong — `agent` does
not occur as a substring of `urgent agenda`, so `parseMessage` leaves that
text unchanged instead of producing `ur enda`. -/
theorem C10_counterexample :
    (parseMessage "urgent agenda").2 = "urgent agenda" ∧
    (parseMessage "urgent agenda").2 ≠ "ur enda" := by
  refine ⟨by decide, by decide⟩

/-- C10, amended: `parseMessage` removes `agent` and `ask` case-insensitively
as raw substrings even inside longer words — `task` loses its `ask`, `magenta`
loses its `agent` — while `urgent agenda`, which contains neither substring,
is left unchanged. -/
theorem C10_amended_substring_removal :
    (parseMessage "about the task").2 = "about the t" ∧
    (parseMessage "a magenta vase").2 = "a ma vase" ∧
    (parseMessage "TASK AND AGENTS").2 = "T AND S" ∧
    (parseMessage "urgent agenda").2 = "urgent agenda" := by
  refine ⟨by decide, by decide, by decide, by decide⟩

/-- C2: once `markEventProcessed` has run for a key, `isEventProcessed`
reports it (first conjunct); hence a second delivery of the same event key
after a first delivery is a no-op — the router answers without invoking the
Answer Generator, so no second placeholder can be posted (second conjunct);
and the key stays in the cache across later `markEventProcessed` calls unless
it is the oldest entry of a full cache, i.e. until capacity eviction (or the
TTL timer, modelled as the separate `ttlExpire`) removes it (third
conjunct). -/
theorem C2_dedup_suppresses_second_delivery (cache : List String) (k : String) :
    isEventProcessed (markEventProcessed cache k) k = true ∧
    (routerMentionStep (routerMentionStep cache k).1 k).2 = false ∧
    (∀ k', isEventProcessed cache k = true → cache.head? ≠ some k →
      isEventProcessed (markEventProcessed cache k') k = true) := by
  refine ⟨?_, ?_, ?_⟩
  · simp [isEventProcessed, mem_markEventProcessed_self]
  · unfold routerMentionStep
    split
    · next h => simp [routerMentionStep, h]
    · have hm : isEventProcessed (markEventProcessed cache k) k = true := by
        simp [isEventProcessed, mem_markEventProcessed_self]
      simp [routerMentionStep, hm]
  · intro k' hk hhead
    simp only [isEventProcessed, decide_eq_true_eq] at hk ⊢
    exact mem_markEventProcessed_of_mem cache k k' hk hhead

/-- Witness for C2: a concrete cache, key and later insert. -/
theorem C2_dedup_suppresses_second_delivery_witness :
    isEventProcessed (markEventProcessed ["a:0:x"] "c:2:u") "c:2:u" = true ∧
    (routerMentionStep (routerMentionStep ["a:0:x"] "c:2:u").1 "c:2:u").2
      = false ∧
    isEventProcessed (markEventProcessed ["a:0:x", "c:2:u"] "c:9:u") "c:2:u"
      = true := by
  refine ⟨(C2_dedup_suppresses_second_delivery ["a:0:x"] "c:2:u").1,
    (C2_dedup_suppresses_second_delivery ["a:0:x"] "c:2:u").2.1,
    (C2_dedup_suppresses_second_delivery ["a:0:x", "c:2:u"] "c:2:u").2.2
      "c:9:u" (by decide) (by decide)⟩

/-- C6: a `markEventProcessed` call on a cache within its capacity bound
whose entries are all non-empty (as every `getEventKey` output is, last
conjunct) never rejects the insert — the key is a member afterwards — and
never leaves the cache above `MAX_CACHE_SIZE` entries: with a full cache the
oldest entry is evicted first.  The function is total, so no call raises an
error. -/
theorem C6_capacity_eviction (cache : List String) (k : String)
    (hne : ∀ x ∈ cache, x ≠ "") (hlen : cache.length ≤ MAX_CACHE_SIZE) :
    (markEventProcessed cache k).length ≤ MAX_CACHE_SIZE ∧
    k ∈ markEventProcessed cache k ∧
    (k ≠ "" → ∀ x ∈ markEventProcessed cache k, x ≠ "") ∧
    (∀ channel ts user, getEventKey channel ts user ≠ "") := by
  have hevict_len : (evictIfFull cache).length + 1 ≤ MAX_CACHE_SIZE := by
    unfold evictIfFull
    split
    · next hge =>
      have hfull : cache.length = MAX_CACHE_SIZE := le_antisymm hlen hge
      cases cache with
      | nil => simp [MAX_CACHE_SIZE] at hfull
      | cons f rest =>
        have hf : f ≠ "" := hne f (by simp)
        show (if f = "" then f :: rest else rest).length + 1 ≤ MAX_CACHE_SIZE
        simp only [if_neg hf]
        simp only [List.length_cons] at hfull
        omega
    · next hlt => omega
  have hevict_sub : ∀ x ∈ evictIfFull cache, x ∈ cache := by
    intro x hx
    unfold evictIfFull at hx
    split at hx
    · cases cache with
      | nil => exact hx
      | cons f rest =>
        by_cases hf : f = ""
        · simpa [hf] using hx
        · simp only [if_neg hf] at hx
          exact List.mem_cons_of_mem f hx
    · exact hx
  refine ⟨?_, mem_markEventProcessed_self cache k, ?_, ?_⟩
  · unfold markEventProcessed
    dsimp only
    split
    · next h => omega
    · simp only [List.length_append, List.length_singleton]
      omega
  · intro hk x hx
    unfold markEventProcessed at hx
    dsimp only at hx
    split at hx
    · exact hne x (hevict_sub x hx)
    · rcases List.mem_append.mp hx with h | h
      · exact hne x (hevict_sub x h)
      · simp only [List.mem_singleton] at h
        simpa [h] using hk
  · intro channel ts user
    simp [getEventKey, String.ext_iff]

/-- C5: `buildContext` is the framing sentence (naming the display name and
quoting the question verbatim) followed by the calendar, messaging and
issue-tracker sections in that fixed order; each section is empty exactly
when its source list is empty (so no empty headers appear), and otherwise is
its label followed by the source's raw strings as a bulleted list. -/
theorem C5_buildContext_structure (a : AgentData) (q : String) :
    buildContext a q =
      framingSentence a.displayName q ++ calendarSection a ++ slackSection a ++
        linearSection a ∧
    (∃ rest, buildContext a q = framingSentence a.displayName q ++ rest) ∧
    (calendarSection a = "" ↔ a.calendar = []) ∧
    (slackSection a = "" ↔ a.slack = []) ∧
    (linearSection a = "" ↔ a.linear = []) := by
  have hmain : buildContext a q =
      framingSentence a.displayName q ++ calendarSection a ++ slackSection a ++
        linearSection a := by
    unfold buildContext calendarSection slackSection linearSection
    by_cases h1 : a.calendar.length > 0 <;> by_cases h2 : a.slack.length > 0 <;>
      by_cases h3 : a.linear.length > 0 <;>
        simp [h1, h2, h3, String.ext_iff, List.append_assoc]
  refine ⟨hmain, ?_, ?_, ?_, ?_⟩
  · refine ⟨calendarSection a ++ (slackSection a ++ linearSection a), ?_⟩
    rw [hmain, string_append_assoc, string_append_assoc]
  · unfold calendarSection
    by_cases h : a.calendar.length > 0
    · simp only [if_pos h]
      constructor
      · intro habs
        exact absurd (congrArg String.data habs) (by simp)
      · intro hl
        rw [hl] at h
        simp at h
    · simp only [if_neg h]
      have hnil : a.calendar = [] := by simpa using h
      simp [hnil]
  · unfold slackSection
    by_cases h : a.slack.length > 0
    · simp only [if_pos h]
      constructor
      · intro habs
        exact absurd (congrArg String.data habs) (by simp)
      · intro hl
        rw [hl] at h
        simp at h
    · simp only [if_neg h]
      have hnil : a.slack = [] := by simpa using h
      simp [hnil]
  · unfold linearSection
    by_cases h : a.linear.length > 0
    · simp only [if_pos h]
      constructor
      · intro habs
        exact absurd (congrArg String.data habs) (by simp)
      · intro hl
        rw [hl] at h
        simp at h
    · simp only [if_neg h]
      have hnil : a.linear = [] := by simpa using h
      simp [hnil]

/-- Witness for C6: a concrete in-bounds cache and key. -/
theorem C6_capacity_eviction_witness :
    (markEventProcessed ["chan:1.0:u7"] "chan:2.0:u8").length ≤ MAX_CACHE_SIZE ∧
    "chan:2.0:u8" ∈ markEventProcessed ["chan:1.0:u7"] "chan:2.0:u8" := by
  have h := C6_capacity_eviction ["chan:1.0:u7"] "chan:2.0:u8"
    (by decide) (by decide)
  exact ⟨h.1, h.2.1⟩

/-- Discriminator for `slack.chat.postMessage` effects. -/
def isPostMessage : Effect → Bool
  | .postMessage _ _ _ => true
  | _ => false

/-- Discriminator for language-model call effects. -/
def isLlmCall : Effect → Bool
  | .llmCall _ _ => true
  | _ => false

/-- C7: when the parsed target user has no aggregated agent data, the Answer
Generator's whole trace is the display-name lookup followed by the onboarding
nudge: exactly one message is posted (the nudge, built from the looked-up
name), no language-model call is made, and no placeholder is posted (the
nudge is the only posted message and is not the thinking text of any
agent). -/
theorem C7_unknown_user_single_nudge (env : Env) (ev : SlackEvent)
    (target : String)
    (htarget : (parseMessage ev.text).1 = some target)
    (hne : target ≠ "") (hq : (parseMessage ev.text).2 ≠ "")
    (hunknown : getAgentData target = none) :
    handleAppMention env ev =
      [.lookupUser target,
       .postMessage ev.channel ev.ts (nudgeText (env.userName target))] ∧
    ((handleAppMention env ev).filter isPostMessage).length = 1 ∧
    ((handleAppMention env ev).filter isLlmCall).length = 0 := by
  have htrace : handleAppMention env ev =
      [.lookupUser target,
       .postMessage ev.channel ev.ts (nudgeText (env.userName target))] := by
    simp only [handleAppMention, htarget, hunknown]
    rw [if_neg (by tauto)]
  refine ⟨htrace, ?_, ?_⟩ <;> rw [htrace] <;> rfl

/-- Witness for C7: a mention of a target absent from the demo table. -/
theorem C7_unknown_user_single_nudge_witness :
    handleAppMention
        ⟨fun _ => "carol", fun _ _ => none, "555.001"⟩
        ⟨"<@U1A> <@U9ZZZ> hello", "C42", "100.5"⟩ =
      [.lookupUser "U9ZZZ",
       .postMessage "C42" "100.5" (nudgeText "carol")] := by
  exact (C7_unknown_user_single_nudge
    ⟨fun _ => "carol", fun _ _ => none, "555.001"⟩
    ⟨"<@U1A> <@U9ZZZ> hello", "C42", "100.5"⟩ "U9ZZZ"
    (by decide) (by decide) (by decide) (by decide)).1

/-- Substring test: whether `pat` occurs contiguously in the text. -/
def containsSeq (pat : List Char) : List Char → Bool
  | [] => pat.isEmpty
  | c :: cs => ((c :: cs).take pat.length == pat) || containsSeq pat cs

/-- A generated answer containing a triple-backtick code fence. -/
def c1Answer : String := "Sure - here is the snippet:\n```js\nconsole.log(1)\n```"

def c1Env : Env := ⟨fun _ => "john", fun _ _ => some c1Answer, "171.001"⟩

def c1Event : SlackEvent := ⟨"<@UBOT1> <@U12345> is he busy", "C9", "9.9"⟩

/-- C1, counterexample: the Answer Generator performs no truncation and no
code-fence conversion — for an answer containing a triple-backtick fence, the
final update of the placeholder message embeds the answer verbatim, so the
updated message still contains the triple-delimited fence. -/
theorem C1_counterexample :
    (handleAppMention c1Env c1Event).getLast? =
      some (.updateMessage "C9" "171.001" c1Answer
        [agentBlockText "John Smith" c1Answer, sourcesFooterText johnData]) ∧
    containsSeq "```".data c1Answer.data = true ∧
    containsSeq "```".data (agentBlockText "John Smith" c1Answer).data = true := by
  refine ⟨by decide, by decide, by decide⟩

/-- C1, amended: on the success path the placeholder update carries the
generated answer verbatim — plain text equal to the answer and a block text
equal to a fixed header followed by the answer — with no truncation, no
truncation marker and no code-fence rewriting at any length. -/
theorem C1_amended_verbatim_answer (env : Env) (ev : SlackEvent)
    (target : String) (a : AgentData) (answer : String)
    (htarget : (parseMessage ev.text).1 = some target)
    (hne : target ≠ "") (hq : (parseMessage ev.text).2 ≠ "")
    (hfound : getAgentData target = some a)
    (hllm : env.llm (systemPrompt a.displayName)
        (buildContext a (parseMessage ev.text).2) = some answer) :
    handleAppMention env ev =
      [.postMessage ev.channel ev.ts (thinkingText a.displayName),
       .llmCall (systemPrompt a.displayName)
         (buildContext a (parseMessage ev.text).2),
       .updateMessage ev.channel env.placeholderTs answer
         [agentBlockText a.displayName answer, sourcesFooterText a]] ∧
    agentBlockText a.displayName answer =
      "ðŸ¤– *" ++ a.displayName ++ "'s Agent:*\n\n" ++ answer := by
  constructor
  · simp only [handleAppMention, htarget, hfound, hllm]
    rw [if_neg (by tauto)]
  · rfl

/-- Witness for C1's amended theorem: the concrete success run of the
counterexample environment. -/
theorem C1_amended_verbatim_answer_witness :
    handleAppMention c1Env c1Event =
      [.postMessage "C9" "9.9" (thinkingText "John Smith"),
       .llmCall (systemPrompt "John Smith") (buildContext johnData "is he busy"),
       .updateMessage "C9" "171.001" c1Answer
         [agentBlockText "John Smith" c1Answer, sourcesFooterText johnData]] := by
  exact (C1_amended_verbatim_answer c1Env c1Event "U12345" johnData c1Answer
    (by decide) (by decide) (by decide) (by decide) (by decide)).1

/-! ## Helper lemmas about the status routes -/

lemma mem_setAdd {acc : List String} {t tool : String}
    (h : tool ∈ setAdd acc t) : tool ∈ acc ∨ tool = t := by
  unfold setAdd at h
  split at h
  · exact Or.inl h
  · rcases List.mem_append.mp h with h' | h'
    · exact Or.inl h'
    · exact Or.inr (by simpa using h')

lemma statusStepV2_mem (cfg : List (String × String)) (acc : List String)
    (conn : ConnRec) (tool : String) (h : tool ∈ statusStepV2 cfg acc conn) :
    tool ∈ acc ∨
      (authConfigToTool cfg ((extractAcid conn).getD "") = some tool ∧
       (conn.status = some "ACTIVE" ∨
         (¬ jsTruthy conn.status ∧ jsTruthy (extractConnId conn)))) := by
  unfold statusStepV2 at h
  dsimp only at h
  split at h
  next hacid =>
    split at h
    next tool' heq =>
      split at h
      next htne =>
        split at h
        next hcond =>
          rcases mem_setAdd h with h' | h'
          · exact Or.inl h'
          · subst h'
            exact Or.inr ⟨heq, hcond⟩
        next => exact Or.inl h
      next => exact Or.inl h
    next => exact Or.inl h
  next => exact Or.inl h

lemma statusToolsV2_mem (cfg : List (String × String)) (records : List ConnRec)
    (tool : String) (h : tool ∈ statusToolsV2 cfg records) :
    ∃ c ∈ records,
      authConfigToTool cfg ((extractAcid c).getD "") = some tool ∧
      (c.status = some "ACTIVE" ∨
        (¬ jsTruthy c.status ∧ jsTruthy (extractConnId c))) := by
  suffices haux : ∀ (recs : List ConnRec) (acc : List String),
      tool ∈ recs.foldl (statusStepV2 cfg) acc →
      tool ∈ acc ∨ ∃ c ∈ recs,
        authConfigToTool cfg ((extractAcid c).getD "") = some tool ∧
        (c.status = some "ACTIVE" ∨
          (¬ jsTruthy c.status ∧ jsTruthy (extractConnId c))) by
    rcases haux records [] h with h' | h'
    · simp at h'
    · exact h'
  intro recs
  induction recs with
  | nil => intro acc h'; exact Or.inl h'
  | cons r rs ih =>
    intro acc h'
    simp only [List.foldl_cons] at h'
    rcases ih (statusStepV2 cfg acc r) h' with h'' | h''
    · rcases statusStepV2_mem cfg acc r tool h'' with h3 | h3
      · exact Or.inl h3
      · exact Or.inr ⟨r, by simp, h3⟩
    · obtain ⟨c, hc, hcond⟩ := h''
      exact Or.inr ⟨c, by simp [hc], hcond⟩

lemma statusStepV1_mem (cfg : List (String × String))
    (getFull : String → Option ConnRec) (acc : List String) (conn : ConnRec)
    (tool : String) (h : tool ∈ statusStepV1 cfg getFull acc conn) :
    tool ∈ acc ∨
      (authConfigToTool cfg ((v1ResolvedAcid getFull conn).getD "")
          = some tool ∧
       jsTruthy (extractConnId conn) = true ∧
       conn.status = some "ACTIVE") := by
  unfold statusStepV1 at h
  dsimp only at h
  split at h
  next => exact Or.inl h
  next hcid =>
    split at h
    next => exact Or.inl h
    next hst =>
      have hactive : conn.status = some "ACTIVE" := not_not.mp hst
      have hcid₂ : jsTruthy (extractConnId conn) = true := not_not.mp hcid
      split at h
      next hacid =>
        split at h
        next tool' heq =>
          split at h
          next htne =>
            rcases mem_setAdd h with h' | h'
            · exact Or.inl h'
            · subst h'
              exact Or.inr ⟨heq, hcid₂, hactive⟩
          next => exact Or.inl h
        next => exact Or.inl h
      next => exact Or.inl h

lemma statusToolsV1_mem (cfg : List (String × String))
    (getFull : String → Option ConnRec) (records : List ConnRec)
    (tool : String) (h : tool ∈ statusToolsV1 cfg getFull records) :
    ∃ c ∈ records,
      authConfigToTool cfg ((v1ResolvedAcid getFull c).getD "") = some tool ∧
      jsTruthy (extractConnId c) = true ∧
      c.status = some "ACTIVE" := by
  suffices haux : ∀ (recs : List ConnRec) (acc : List String),
      tool ∈ recs.foldl (statusStepV1 cfg getFull) acc →
      tool ∈ acc ∨ ∃ c ∈ recs,
        authConfigToTool cfg ((v1ResolvedAcid getFull c).getD "")
            = some tool ∧
        jsTruthy (extractConnId c) = true ∧
        c.status = some "ACTIVE" by
    rcases haux records [] h with h' | h'
    · simp at h'
    · exact h'
  intro recs
  induction recs with
  | nil => intro acc h'; exact Or.inl h'
  | cons r rs ih =>
    intro acc h'
    simp only [List.foldl_cons] at h'
    rcases ih (statusStepV1 cfg getFull acc r) h' with h'' | h''
    · rcases statusStepV1_mem cfg getFull acc r tool h'' with h3 | h3
      · exact Or.inl h3
      · exact Or.inr ⟨r, by simp, h3⟩
    · obtain ⟨c, hc, hcond⟩ := h''
      exact Or.inr ⟨c, by simp [hc], hcond⟩

/-- A broker record with a known auth config, a connection id and a missing
status. -/
def c8MissingStatusRec : ConnRec :=
  { id := some "conn-1", connected_account_id := none,
    authConfigId := some "cfg-slack", auth_config_id := none,
    auth_config_obj_id := none, status := none }

/-- C8, counterexample: in the `src/unnamed/part_002` status route a record
with a *missing* status (and a present connection id) does put its tool into
`connectedTools`, although no record has status `ACTIVE` — refuting "a tool
appears only when its record's status is exactly `ACTIVE`, ... including a
missing status". -/
theorem C8_counterexample :
    statusToolsV2 [("Slack", "cfg-slack")] [c8MissingStatusRec] = ["Slack"] ∧
    c8MissingStatusRec.status ≠ some "ACTIVE" := by
  refine ⟨by decide, by decide⟩

/-- C8, amended, with per-tool attribution: a tool is in the `part_001`
route's `connectedTools` only on the strength of a record *whose resolved
auth-config id reverse-maps to that very tool* and whose status is exactly
`ACTIVE` (so a tool whose own records are `INITIATED`, missing-status or
anything else never appears there); a tool is in the `part_002` route's
`connectedTools` only on the strength of a record reverse-mapping to that
tool whose status is exactly `ACTIVE` or is falsy (missing/empty) together
with a truthy connection id. -/
theorem C8_amended_active_only :
    (∀ (cfg : List (String × String)) (getFull : String → Option ConnRec)
        (records : List ConnRec) (tool : String),
      tool ∈ statusToolsV1 cfg getFull records →
      ∃ c ∈ records,
        authConfigToTool cfg ((v1ResolvedAcid getFull c).getD "")
            = some tool ∧
        jsTruthy (extractConnId c) = true ∧
        c.status = some "ACTIVE") ∧
    (∀ (cfg : List (String × String)) (records : List ConnRec) (tool : String),
      tool ∈ statusToolsV2 cfg records →
      ∃ c ∈ records,
        authConfigToTool cfg ((extractAcid c).getD "") = some tool ∧
        (c.status = some "ACTIVE" ∨
          (¬ jsTruthy c.status ∧ jsTruthy (extractConnId c)))) := by
  exact ⟨statusToolsV1_mem, statusToolsV2_mem⟩

/-- An `ACTIVE` broker record for the Slack auth config. -/
def c8ActiveRec : ConnRec :=
  { id := some "conn-2", connected_account_id := none,
    authConfigId := some "cfg-slack", auth_config_id := none,
    auth_config_obj_id := none, status := some "ACTIVE" }

/-- Witness for C8's amended theorem: the tool reported by the `part_001`
route is explained by a concrete `ACTIVE` record that reverse-maps to it. -/
theorem C8_amended_active_only_witness :
    ∃ c ∈ [c8ActiveRec],
      authConfigToTool [("Slack", "cfg-slack")]
          ((v1ResolvedAcid (fun _ => none) c).getD "") = some "Slack" ∧
      jsTruthy (extractConnId c) = true ∧
      c.status = some "ACTIVE" :=
  C8_amended_active_only.1 [("Slack", "cfg-slack")] (fun _ => none)
    [c8ActiveRec] "Slack" (by decide)

/-! ## C9: the connect endpoint on an existing ACTIVE connection -/

/-- Discriminator: whether the endpoint answered with a success payload. -/
def isOkPayload : ConnResponse → Bool
  | .ok _ _ _ _ => true
  | .err _ _ => false

/-- An `ACTIVE` broker record for the Slack auth config, as listed by the
connect route's broker. -/
def c9ActiveRec : ConnRec :=
  { id := some "conn-9", connected_account_id := none,
    authConfigId := some "cfg-slack", auth_config_id := none,
    auth_config_obj_id := none, status := some "ACTIVE" }

def c9Env : ConnEnv := ⟨some [c9ActiveRec], fun _ => none, none⟩

/-- C9, counterexample: with a recognized tool and an existing `ACTIVE`
connection for its auth config, the cited endpoint answers with the HTTP 400
error `Connection already exists. Please disconnect first.` — an error, not a
success payload, and in particular not one carrying `alreadyConnected:true`. -/
theorem C9_counterexample :
    connectGET [("Slack", "cfg-slack")] (some "Slack") (some "user-1") c9Env =
      .err "Connection already exists. Please disconnect first." 400 ∧
    isOkPayload
      (connectGET [("Slack", "cfg-slack")] (some "Slack") (some "user-1") c9Env)
      = false := by
  refine ⟨by decide, by decide⟩

/-- C9, amended: whenever the first broker record matching the recognized
tool's auth config (with status `INITIATED` or `ACTIVE`) is `ACTIVE`, the
cited endpoint responds with the 400 error telling the user to disconnect
first — never with a success payload, and no response of this endpoint ever
carries `alreadyConnected:true`. -/
theorem C9_amended_active_yields_error (cfg : List (String × String))
    (tool userId : Option String) (env : ConnEnv) (acid : String)
    (conns : List ConnRec) (c : ConnRec)
    (htool : jsTruthy tool = true) (huser : jsTruthy userId = true)
    (hacid : recordGet cfg (tool.getD "") = some acid) (hne : acid ≠ "")
    (hlist : env.listResult = some conns)
    (hfind : conns.find? (existingConnPred acid) = some c)
    (hactive : c.status = some "ACTIVE") :
    connectGET cfg tool userId env =
      .err "Connection already exists. Please disconnect first." 400 := by
  simp [connectGET, hacid, hlist, hfind, hactive, htool, huser, hne]

/-- Witness for C9's amended theorem: the concrete run of the
counterexample's environment. -/
theorem C9_amended_active_yields_error_witness :
    connectGET [("Slack", "cfg-slack")] (some "Slack") (some "user-1") c9Env =
      .err "Connection already exists. Please disconnect first." 400 :=
  C9_amended_active_yields_error [("Slack", "cfg-slack")] (some "Slack")
    (some "user-1") c9Env "cfg-slack" [c9ActiveRec] c9ActiveRec
    (by decide) (by decide) (by decide) (by decide) (by decide) (by decide)
    (by decide)

end Doppel
